import Mathlib

/-!
Verification of the riotplan-catalyst core: a shallow embedding of the
catalyst loader, schema validation, facet merger, facet renderer and
plan-manifest reader, with theorems settling the specified properties.

File I/O is modelled by an abstract snapshot of the relevant directories
(a function from absolute path to directory state); YAML parsing is
abstracted by presenting the parsed manifest candidate directly, so that
schema validation operates on a well-typed candidate structure.
-/

namespace RiotplanCatalyst

/-- The six fixed facet categories (FACET_TYPES in schemas). -/
inductive FacetType where
  | questions
  | constraints
  | outputTemplates
  | domainKnowledge
  | processGuidance
  | validationRules
deriving DecidableEq, Repr

/-- The FACET_TYPES constant: all facet types in their fixed declaration order. -/
def FACET_TYPES : List FacetType :=
  [.questions, .constraints, .outputTemplates, .domainKnowledge, .processGuidance, .validationRules]

/-- The string name of a facet type as it appears in code and messages. -/
def facetTypeName : FacetType → String
  | .questions => "questions"
  | .constraints => "constraints"
  | .outputTemplates => "outputTemplates"
  | .domainKnowledge => "domainKnowledge"
  | .processGuidance => "processGuidance"
  | .validationRules => "validationRules"

/-- The FACET_DIRECTORIES constant: on-disk directory name for each facet type. -/
def FACET_DIRECTORIES : FacetType → String
  | .questions => "questions"
  | .constraints => "constraints"
  | .outputTemplates => "output-templates"
  | .domainKnowledge => "domain-knowledge"
  | .processGuidance => "process-guidance"
  | .validationRules => "validation-rules"

/-- Content loaded from a single facet file (interface FacetContent). -/
structure FacetContent where
  filename : String
  content : String
deriving DecidableEq, Repr

/-- Parsed catalyst.yml manifest (interface CatalystManifest). The facets
field is the optional per-category boolean declaration. -/
structure CatalystManifest where
  id : String
  name : String
  description : String
  version : String
  facets : Option (FacetType → Option Bool)

/-- A fully loaded catalyst (interface Catalyst): its facets mapping has a
category present (some) only as stored by the loader or a caller. -/
structure Catalyst where
  manifest : CatalystManifest
  facets : FacetType → Option (List FacetContent)
  directoryPath : String

/-- Content with source attribution (interface AttributedContent). -/
structure AttributedContent where
  content : String
  sourceId : String
  filename : Option String
deriving DecidableEq, Repr

/-- Per-catalyst contribution record in a merge. -/
structure Contribution where
  facetTypes : List FacetType
  contentCount : Nat
deriving DecidableEq, Repr

/-- The contributions Map of the merger, as an insertion-ordered association
list (JS Map semantics: set on an existing key updates in place, set on a
fresh key appends). -/
abbrev ContribMap := List (String × Contribution)

/-- Map.get: first entry with the key, if any. -/
def mapGet : ContribMap → String → Option Contribution
  | [], _ => none
  | (k', v) :: rest, k => if k' = k then some v else mapGet rest k

/-- Map.set: update the existing entry in place, else append. -/
def mapSet : ContribMap → String → Contribution → ContribMap
  | [], k, v => [(k, v)]
  | (k', v') :: rest, k, v =>
      if k' = k then (k, v) :: rest else (k', v') :: mapSet rest k v

/-- Result of merging (interface MergedCatalyst); facets is the partial
mapping from category to attributed content. -/
structure MergedCatalyst where
  catalystIds : List String
  facets : FacetType → Option (List AttributedContent)
  contributions : ContribMap

/-- One contribution update of mergeCatalysts: fetch or default the record,
add the facet type if absent, add the file count, and set it back. -/
def updateContrib (m : ContribMap) (k : String) (ft : FacetType) (n : Nat) : ContribMap :=
  mapSet m k
    { facetTypes :=
        if ft ∈ ((mapGet m k).getD { facetTypes := [], contentCount := 0 }).facetTypes
        then ((mapGet m k).getD { facetTypes := [], contentCount := 0 }).facetTypes
        else ((mapGet m k).getD { facetTypes := [], contentCount := 0 }).facetTypes ++ [ft],
      contentCount :=
        ((mapGet m k).getD { facetTypes := [], contentCount := 0 }).contentCount + n }

/-- Inner loop of mergeCatalysts over the catalysts for one facet type:
append each file of a non-empty facet with source attribution and track
the contribution. -/
def mergeFacetLoop (ft : FacetType) :
    List Catalyst → List AttributedContent → ContribMap →
    List AttributedContent × ContribMap
  | [], acc, m => (acc, m)
  | c :: rest, acc, m =>
      match c.facets ft with
      | some fc =>
          if 0 < fc.length then
            mergeFacetLoop ft rest
              (acc ++ fc.map (fun f =>
                { content := f.content, sourceId := c.manifest.id, filename := some f.filename }))
              (updateContrib m c.manifest.id ft fc.length)
          else mergeFacetLoop ft rest acc m
      | none => mergeFacetLoop ft rest acc m

/-- Outer loop of mergeCatalysts over the facet types: the merged list is
stored under the category only when non-empty. -/
def mergeLoop (cs : List Catalyst) :
    List FacetType → (FacetType → Option (List AttributedContent)) → ContribMap →
    (FacetType → Option (List AttributedContent)) × ContribMap
  | [], facets, m => (facets, m)
  | ft :: rest, facets, m =>
      mergeLoop cs rest
        (if 0 < (mergeFacetLoop ft cs [] m).1.length
         then fun t => if t = ft then some (mergeFacetLoop ft cs [] m).1 else facets t
         else facets)
        (mergeFacetLoop ft cs [] m).2

/-- mergeCatalysts from facet-merger.ts: merge an ordered list of catalysts. -/
def mergeCatalysts (cs : List Catalyst) : MergedCatalyst :=
  { catalystIds := cs.map (fun c => c.manifest.id),
    facets := (mergeLoop cs FACET_TYPES (fun _ => none) []).1,
    contributions := (mergeLoop cs FACET_TYPES (fun _ => none) []).2 }

/-- The attributed items one catalyst contributes to one category: one per
file, in the catalyst file order, tagged with the manifest id and the
original filename, content unchanged. An absent category contributes none. -/
def attributedItems (ft : FacetType) (c : Catalyst) : List AttributedContent :=
  ((c.facets ft).getD []).map (fun f =>
    { content := f.content, sourceId := c.manifest.id, filename := some f.filename })

/-- All items contributed to one category by an ordered list of catalysts,
in input order. -/
def mergedItems (cs : List Catalyst) (ft : FacetType) : List AttributedContent :=
  (cs.map (attributedItems ft)).flatten

/-- Whether a catalyst passes the merger guard for a category: the facet is
present with at least one file. -/
def hasContent (c : Catalyst) (ft : FacetType) : Bool :=
  match c.facets ft with
  | some fc => decide (0 < fc.length)
  | none => false

/-- Sum of the contentCount of every contribution entry. -/
def contribSum (m : ContribMap) : Nat :=
  (m.map (fun p => p.2.contentCount)).sum

/-- The facetTypes list recorded for a key, the empty list when absent. -/
def ftsAt (m : ContribMap) (k : String) : List FacetType :=
  ((mapGet m k).getD { facetTypes := [], contentCount := 0 }).facetTypes

/-- Total number of attributed items over all facet categories of a merge. -/
def totalMergedItems (mc : MergedCatalyst) : Nat :=
  (FACET_TYPES.map (fun ft => ((mc.facets ft).getD []).length)).sum

/-- Loop of renderFacet: lines built so far and the current source. A new
source header is pushed when the source differs from the tracked one,
preceded by a blank line when lines were already present. -/
def renderLoop : List AttributedContent → List String → String → List String
  | [], lines, _ => lines
  | item :: rest, lines, currentSource =>
      if item.sourceId = currentSource then
        renderLoop rest (lines ++ [item.content]) currentSource
      else
        renderLoop rest
          ((if 0 < lines.length then lines ++ [""] else lines)
            ++ ["From " ++ item.sourceId ++ ":", item.content])
          item.sourceId

/-- renderFacet from facet-merger.ts: empty string when the category has no
merged content, else the newline-joined lines of the loop started with no
lines and the empty current source. -/
def renderFacet (merged : MergedCatalyst) (ft : FacetType) : String :=
  match merged.facets ft with
  | none => ""
  | some content =>
      if content.length = 0 then ""
      else String.intercalate "\n" (renderLoop content [] "")

/-- Modelled from the specification of the renderer: the maximal contiguous
runs of same-source items, each run as its source and its contents in
order. -/
def contentRuns : List AttributedContent → List (String × List String)
  | [] => []
  | item :: rest =>
      match contentRuns rest with
      | [] => [(item.sourceId, [item.content])]
      | (s, cs) :: more =>
          if item.sourceId = s then (s, item.content :: cs) :: more
          else (item.sourceId, [item.content]) :: (s, cs) :: more

/-- Modelled from the specification of the renderer: one block per run, a
header line then the contents. -/
def runBlock (r : String × List String) : List String :=
  ("From " ++ r.1 ++ ":") :: r.2

/-- Modelled from the specification of the renderer: the blocks of all runs
separated by one blank line, with no leading blank line. -/
def specFacetLines (content : List AttributedContent) : List String :=
  List.intercalate [""] ((contentRuns content).map runBlock)

/-- Modelled from the specification of the renderer: the newline-joined
spec rendering of a category with content. -/
def specRenderFacet (content : List AttributedContent) : String :=
  String.intercalate "\n" (specFacetLines content)

/-- Word character of the JS regex class backslash-w: ASCII letter, digit
or underscore. -/
def isWordChar (c : Char) : Bool :=
  (c.isAlpha || c.isDigit) || c = '_'

/-- Character admitted in an id name part by the NPM package pattern. -/
def isIdChar (c : Char) : Bool :=
  isWordChar c || c = '-'

/-- A non-empty run of id characters. -/
def idPart (cs : List Char) : Bool :=
  !cs.isEmpty && cs.all isIdChar

/-- Split a character list at its first slash, when one is present. -/
def splitAtSlash : List Char → Option (List Char × List Char)
  | [] => none
  | c :: rest =>
      if c = '/' then some ([], rest)
      else (splitAtSlash rest).map (fun p => (c :: p.1, p.2))

/-- The NPM_PACKAGE_PATTERN regex of schemas.ts: an optional at-scope-slash
prefix followed by a name of word characters and hyphens, anchored at both
ends. -/
def npmPackageMatch (s : String) : Bool :=
  match s.toList with
  | '@' :: rest =>
      match splitAtSlash rest with
      | some (scope, name) => idPart scope && idPart name
      | none => false
  | cs => idPart cs

/-- Character admitted in a semver prerelease suffix: word character or dot. -/
def isPreChar (c : Char) : Bool :=
  isWordChar c || c = '.'

/-- Maximal leading run of ASCII digits and the remainder. -/
def takeDigits : List Char → List Char × List Char
  | [] => ([], [])
  | c :: rest =>
      if c.isDigit then ((c :: (takeDigits rest).1), (takeDigits rest).2)
      else ([], c :: rest)

/-- The SEMVER_PATTERN regex of schemas.ts: three dot-separated digit runs
with an optional dash-prefixed prerelease of word characters and dots,
anchored at both ends. -/
def semverMatch (s : String) : Bool :=
  match takeDigits s.toList with
  | ([], _) => false
  | (_ :: _, r1) =>
      match r1 with
      | '.' :: r2 =>
          match takeDigits r2 with
          | ([], _) => false
          | (_ :: _, r3) =>
              match r3 with
              | '.' :: r4 =>
                  match takeDigits r4 with
                  | ([], _) => false
                  | (_ :: _, r5) =>
                      match r5 with
                      | [] => true
                      | '-' :: pre => !pre.isEmpty && pre.all isPreChar
                      | _ => false
              | _ => false
      | _ => false

/-- The aggregated issue list of CatalystManifestSchema.safeParse on a
well-typed candidate, in schema field order, each issue as its field path
and message. -/
def manifestIssues (m : CatalystManifest) : List (String × String) :=
  (if npmPackageMatch m.id then []
   else [("id", "ID must be a valid NPM package name (e.g., @scope/name or name)")])
  ++ (if m.name.length < 1 then [("name", "Name cannot be empty")] else [])
  ++ (if m.description.length < 1 then [("description", "Description cannot be empty")] else [])
  ++ (if semverMatch m.version then []
      else [("version", "Version must be valid semver (e.g., 1.0.0 or 1.0.0-dev.0)")])

/-- Issues joined for display as in loadManifest: path colon message,
semicolon-separated. -/
def issuesMessage (issues : List (String × String)) : String :=
  String.intercalate "; " (issues.map (fun i => i.1 ++ ": " ++ i.2))

/-- Schema validation of a catalyst manifest candidate: the validated value
when no issue, else the aggregated error. -/
def parseCatalystManifest (m : CatalystManifest) : Except String CatalystManifest :=
  match manifestIssues m with
  | [] => .ok m
  | issues => .error (issuesMessage issues)

/-- One entry of a facet directory listing, as readdir withFileTypes
presents it: name, whether a regular file, and the text content read for a
file. -/
structure DirEntry where
  name : String
  isFile : Bool
  content : String
deriving DecidableEq, Repr

/-- The markdown extension filter of loadFacetFiles: whether the name ends
with dot-m-d. -/
def hasMdExtension (name : String) : Bool :=
  match name.toList.reverse with
  | 'd' :: 'm' :: '.' :: _ => true
  | _ => false

/-- loadFacetFiles: keep the regular files with the markdown extension, in
listing order, each as its filename and full content. -/
def loadFacetFiles (entries : List DirEntry) : List FacetContent :=
  (entries.filter (fun e => e.isFile && hasMdExtension e.name)).map
    (fun e => { filename := e.name, content := e.content })

/-- Snapshot of one facet directory: whether it exists and its entries. -/
structure FacetDirState where
  dirExists : Bool
  entries : List DirEntry

/-- Snapshot of one catalyst directory: whether it exists, the parsed
manifest candidate when catalyst.yml is present and parseable, and the
facet directories. -/
structure DirectoryState where
  dirExists : Bool
  manifestFile : Option CatalystManifest
  facetDirs : FacetType → FacetDirState

/-- The filesystem as a snapshot keyed by absolute path. -/
def FileSystem := String → DirectoryState

/-- Loader options (interface CatalystLoadOptions), absent fields false. -/
structure CatalystLoadOptions where
  strict : Bool := false
  warnOnMissingFacets : Bool := false
  warnOnUndeclaredFacets : Bool := false

/-- Warning text for a facet declared true whose directory was not found. -/
def missingWarning (ft : FacetType) : String :=
  "Facet '" ++ facetTypeName ft ++ "' is declared in manifest but directory '"
    ++ FACET_DIRECTORIES ft ++ "' not found"

/-- Warning text for a present facet directory declared false. -/
def undeclaredWarning (ft : FacetType) : String :=
  "Facet '" ++ facetTypeName ft ++ "' is present but declared as false in manifest"

/-- The declaration the manifest makes for one facet type, when any. -/
def declaredFacet (manifest : CatalystManifest) (ft : FacetType) : Option Bool :=
  match manifest.facets with
  | some decl => decl ft
  | none => none

/-- Loop of loadFacets over the facet types: load an existing directory,
store the content only when non-empty, and collect the two warning
classes. -/
def loadFacetsLoop (d : FacetType → FacetDirState) (manifest : CatalystManifest)
    (o : CatalystLoadOptions) :
    List FacetType → (FacetType → Option (List FacetContent)) → List String →
    (FacetType → Option (List FacetContent)) × List String
  | [], facets, warnings => (facets, warnings)
  | ft :: rest, facets, warnings =>
      if (d ft).dirExists then
        loadFacetsLoop d manifest o rest
          (if 0 < (loadFacetFiles (d ft).entries).length
           then fun t => if t = ft then some (loadFacetFiles (d ft).entries) else facets t
           else facets)
          (if declaredFacet manifest ft == some false && o.warnOnUndeclaredFacets
           then warnings ++ [undeclaredWarning ft] else warnings)
      else
        loadFacetsLoop d manifest o rest facets
          (if declaredFacet manifest ft == some true && o.warnOnMissingFacets
           then warnings ++ [missingWarning ft] else warnings)

/-- loadFacets from catalyst-loader.ts: the loaded facets and the collected
non-fatal warnings. -/
def loadFacets (d : FacetType → FacetDirState) (manifest : CatalystManifest)
    (o : CatalystLoadOptions) :
    (FacetType → Option (List FacetContent)) × List String :=
  loadFacetsLoop d manifest o FACET_TYPES (fun _ => none) []

/-- Whether a path is absolute, as node sees a POSIX path: it opens with a
slash. -/
def isAbsolutePath (p : String) : Bool :=
  match p.toList with
  | '/' :: _ => true
  | _ => false

/-- Node path.resolve of one segment against a base: an absolute path
passes through unchanged, a relative one is joined to the base. -/
def resolvePath (base : String) (p : String) : String :=
  if isAbsolutePath p then p else base ++ "/" ++ p

/-- loadManifest from catalyst-loader.ts: a missing catalyst.yml is the
not-found error naming the manifest path; a present candidate failing
validation is the invalid-manifest error carrying the aggregated message. -/
def loadManifest (d : DirectoryState) (directoryPath : String) : Except String CatalystManifest :=
  match d.manifestFile with
  | none => .error ("Catalyst manifest not found at " ++ directoryPath ++ "/catalyst.yml")
  | some raw =>
      match manifestIssues raw with
      | [] => .ok raw
      | issues => .error ("Invalid catalyst manifest: " ++ issuesMessage issues)

/-- loadCatalyst from catalyst-loader.ts: resolve the path, require the
directory, load and validate the manifest, then load the facets. The
warnings are only console-logged by the source and never affect the
returned value. -/
def loadCatalyst (fs : FileSystem) (cwd : String) (directoryPath : String)
    (o : CatalystLoadOptions) : Except String Catalyst :=
  if (fs (resolvePath cwd directoryPath)).dirExists then
    match loadManifest (fs (resolvePath cwd directoryPath)) (resolvePath cwd directoryPath) with
    | .error e => .error e
    | .ok manifest =>
        .ok { manifest := manifest,
              facets := (loadFacets (fs (resolvePath cwd directoryPath)).facetDirs manifest o).1,
              directoryPath := resolvePath cwd directoryPath }
  else .error ("Catalyst directory not found: " ++ resolvePath cwd directoryPath)

/-- Result shape of the safe loader. -/
inductive CatalystLoadResult where
  | success (catalyst : Catalyst)
  | failure (error : String)

/-- loadCatalystSafe: like loadCatalyst but returning a result object
instead of throwing. -/
def loadCatalystSafe (fs : FileSystem) (cwd : String) (directoryPath : String)
    (o : CatalystLoadOptions) : CatalystLoadResult :=
  match loadCatalyst fs cwd directoryPath o with
  | .ok c => .success c
  | .error e => .failure e

/-- Loop of resolveCatalysts: resolve each identifier against the base
path, load it, and abort on the first failure wrapping the cause and
naming the identifier. -/
def resolveCatalystsLoop (fs : FileSystem) (cwd : String) (basePath : String)
    (o : CatalystLoadOptions) : List String → Except String (List Catalyst)
  | [] => .ok []
  | identifier :: rest =>
      match loadCatalyst fs cwd (resolvePath basePath identifier) o with
      | .ok c =>
          match resolveCatalystsLoop fs cwd basePath o rest with
          | .ok cs => .ok (c :: cs)
          | .error e => .error e
      | .error e =>
          .error ("Failed to load catalyst '" ++ identifier ++ "': " ++ e)

/-- resolveCatalysts from catalyst-loader.ts. -/
def resolveCatalysts (fs : FileSystem) (cwd : String) (identifiers : List String)
    (basePath : String) (o : CatalystLoadOptions) : Except String (List Catalyst) :=
  resolveCatalystsLoop fs cwd basePath o identifiers

/-- Plan manifest (interface PlanManifest), optional fields as options. -/
structure PlanManifest where
  id : String
  title : String
  catalysts : Option (List String)
  created : Option String
  metadata : Option (List (String × String))
deriving DecidableEq, Repr

/-- The aggregated issue list of PlanManifestSchema.safeParse on a
well-typed candidate. -/
def planManifestIssues (m : PlanManifest) : List (String × String) :=
  (if m.id.length < 1 then [("id", "ID cannot be empty")] else [])
  ++ (if m.title.length < 1 then [("title", "Title cannot be empty")] else [])

/-- readPlanManifest from plan-manifest.ts over a snapshot of the plan.yaml
file: an absent file is none for backward compatibility, a present invalid
candidate is the aggregated error, a valid one is returned. -/
def readPlanManifest (file : Option PlanManifest) : Except String (Option PlanManifest) :=
  match file with
  | none => .ok none
  | some raw =>
      match planManifestIssues raw with
      | [] => .ok (some raw)
      | issues => .error ("Invalid plan manifest: " ++ issuesMessage issues)

/-- The lines renderLoop appends after a non-empty prefix, given the source
tracked so far: content only while the source repeats, else a blank line, a
header and the content. -/
def renderTail : List AttributedContent → String → List String
  | [], _ => []
  | item :: rest, cur =>
      if item.sourceId = cur then item.content :: renderTail rest cur
      else "" :: ("From " ++ item.sourceId ++ ":") :: item.content :: renderTail rest item.sourceId

/-- Run blocks each preceded by one blank separator line. -/
def sepBlocks (runs : List (String × List String)) : List String :=
  (runs.map (fun r => "" :: runBlock r)).flatten

/-- The lines the runs contribute after a non-empty prefix whose last item
came from the source cur: the head run continues without a header when its
source is cur, and every other run gets a separator and a header. -/
def runsTail (runs : List (String × List String)) (cur : String) : List String :=
  match runs with
  | [] => []
  | (s, c) :: more => if s = cur then c ++ sepBlocks more else sepBlocks ((s, c) :: more)

/-- The zero or one warnings loadFacets produces for one facet type. -/
def facetWarning (d : FacetType → FacetDirState) (manifest : CatalystManifest)
    (o : CatalystLoadOptions) (ft : FacetType) : List String :=
  if (d ft).dirExists then
    if declaredFacet manifest ft == some false && o.warnOnUndeclaredFacets
    then [undeclaredWarning ft] else []
  else
    if declaredFacet manifest ft == some true && o.warnOnMissingFacets
    then [missingWarning ft] else []

/-- Facet directory snapshot of a directory with no facet content. -/
def emptyFacetDirs : FacetType → FacetDirState :=
  fun _ => { dirExists := false, entries := [] }

/-- Example valid manifest. -/
def exGoodManifest : CatalystManifest :=
  { id := "@ex/good", name := "Good", description := "a catalyst", version := "1.0.0",
    facets := none }

/-- Example invalid manifest: the version is not semver. -/
def exBadManifest : CatalystManifest :=
  { id := "@ex/bad", name := "Bad", description := "a catalyst", version := "v1.0.0",
    facets := none }

/-- Example facet directories holding one markdown question file. -/
def exGoodFacetDirs : FacetType → FacetDirState :=
  fun ft =>
    if ft = FacetType.questions
    then { dirExists := true,
           entries := [{ name := "exploration.md", isFile := true, content := "Exploration Questions" }] }
    else { dirExists := false, entries := [] }

/-- Example filesystem snapshot: one loadable catalyst, one directory with
no manifest, one with an invalid manifest, everything else absent. -/
def exampleFS : FileSystem := fun p =>
  if p = "/plans/good" then
    { dirExists := true, manifestFile := some exGoodManifest, facetDirs := exGoodFacetDirs }
  else if p = "/plans/nomanifest" then
    { dirExists := true, manifestFile := none, facetDirs := emptyFacetDirs }
  else if p = "/plans/badmanifest" then
    { dirExists := true, manifestFile := some exBadManifest, facetDirs := emptyFacetDirs }
  else
    { dirExists := false, manifestFile := none, facetDirs := emptyFacetDirs }

/-- Facet declaration fixture: questions declared true, constraints false. -/
def c2Decl : FacetType → Option Bool :=
  fun ft =>
    if ft = FacetType.questions then some true
    else if ft = FacetType.constraints then some false
    else none

/-- Manifest fixture carrying the declaration fixture. -/
def c2Manifest : CatalystManifest :=
  { id := "@ex/warns", name := "W", description := "warning fixture", version := "1.0.0",
    facets := some c2Decl }

/-- Directory fixture: the questions directory exists yet holds no
markdown file; every other facet directory is absent. -/
def c2EmptyDirs : FacetType → FacetDirState :=
  fun ft =>
    if ft = FacetType.questions then { dirExists := true, entries := [] }
    else { dirExists := false, entries := [] }

/-- Directory fixture: the constraints directory exists with one markdown
file; every other facet directory (the declared questions included) is
absent. -/
def c2WitnessDirs : FacetType → FacetDirState :=
  fun ft =>
    if ft = FacetType.constraints
    then { dirExists := true,
           entries := [{ name := "c.md", isFile := true, content := "C" }] }
    else { dirExists := false, entries := [] }

/-- Options fixture opting in to both warning classes. -/
def c2Options : CatalystLoadOptions :=
  { strict := false, warnOnMissingFacets := true, warnOnUndeclaredFacets := true }

/-- Merged-catalyst fixture whose single item carries the empty string as
its source id. -/
def c3EmptySourceMerged : MergedCatalyst :=
  { catalystIds := ["x"],
    facets := fun ft =>
      if ft = FacetType.questions
      then some [{ content := "hello", sourceId := "", filename := none }]
      else none,
    contributions := [] }

/-- Attributed-content fixture: two items of one source then one of
another. -/
def c3Items : List AttributedContent :=
  [{ content := "A1", sourceId := "@t/a", filename := none },
   { content := "A2", sourceId := "@t/a", filename := none },
   { content := "B1", sourceId := "@t/b", filename := none }]

/-- Merged-catalyst fixture holding the two-source items under questions. -/
def c3TwoSourceMerged : MergedCatalyst :=
  { catalystIds := ["@t/a", "@t/b"],
    facets := fun ft => if ft = FacetType.questions then some c3Items else none,
    contributions := [] }

/-- Catalyst fixture contributing one question file. -/
def c10Catalyst : Catalyst :=
  { manifest := exGoodManifest,
    facets := fun ft =>
      if ft = FacetType.questions
      then some [{ filename := "q.md", content := "Q" }]
      else none,
    directoryPath := "/plans/good" }

/-- Plan-manifest fixture with an empty id. -/
def exBadPlan : PlanManifest :=
  { id := "", title := "t", catalysts := none, created := none, metadata := none }

lemma mem_FACET_TYPES (ft : FacetType) : ft ∈ FACET_TYPES := by
  cases ft <;> simp [FACET_TYPES]

lemma mergedItems_nil (ft : FacetType) : mergedItems [] ft = [] := by
  simp [mergedItems]

lemma mergedItems_cons (c : Catalyst) (cs : List Catalyst) (ft : FacetType) :
    mergedItems (c :: cs) ft = attributedItems ft c ++ mergedItems cs ft := by
  simp [mergedItems]

lemma attributedItems_of_none {c : Catalyst} {ft : FacetType} (h : c.facets ft = none) :
    attributedItems ft c = [] := by
  simp [attributedItems, h]

lemma attributedItems_of_some {c : Catalyst} {ft : FacetType} {fc : List FacetContent}
    (h : c.facets ft = some fc) :
    attributedItems ft c = fc.map (fun f =>
      { content := f.content, sourceId := c.manifest.id, filename := some f.filename }) := by
  simp [attributedItems, h]

lemma mergeFacetLoop_fst (ft : FacetType) (cs : List Catalyst) :
    ∀ (acc : List AttributedContent) (m : ContribMap),
      (mergeFacetLoop ft cs acc m).1 = acc ++ mergedItems cs ft := by
  induction cs with
  | nil => intro acc m; simp [mergeFacetLoop, mergedItems_nil]
  | cons c rest ih =>
      intro acc m
      rw [mergedItems_cons]
      cases hc : c.facets ft with
      | none =>
          simp [mergeFacetLoop, hc, ih, attributedItems_of_none hc]
      | some fc =>
          by_cases hl : 0 < fc.length
          · simp [mergeFacetLoop, hc, hl, ih, attributedItems_of_some hc, List.append_assoc]
          · have hfc : fc = [] := List.length_eq_zero.mp (Nat.eq_zero_of_not_pos hl)
            subst hfc
            simp [mergeFacetLoop, hc, ih, attributedItems_of_some hc]

lemma mergeLoop_fst_not_mem (cs : List Catalyst) :
    ∀ (fts : List FacetType) (f : FacetType → Option (List AttributedContent))
      (m : ContribMap) (ft : FacetType), ft ∉ fts → (mergeLoop cs fts f m).1 ft = f ft := by
  intro fts
  induction fts with
  | nil => intro f m ft _; simp [mergeLoop]
  | cons ft1 rest ih =>
      intro f m ft h
      have hne : ft ≠ ft1 := fun he => h (he ▸ List.mem_cons_self ft1 rest)
      have hrest : ft ∉ rest := fun hr => h (List.mem_cons_of_mem ft1 hr)
      rw [mergeLoop, ih _ _ _ hrest]
      by_cases hcond : 0 < (mergeFacetLoop ft1 cs [] m).1.length
      · simp [hcond, hne]
      · simp [hcond]

lemma mergeLoop_fst_mem (cs : List Catalyst) :
    ∀ (fts : List FacetType) (f : FacetType → Option (List AttributedContent))
      (m : ContribMap) (ft : FacetType), ft ∈ fts →
      (mergeLoop cs fts f m).1 ft =
        (if mergedItems cs ft = [] then f ft else some (mergedItems cs ft)) := by
  intro fts
  induction fts with
  | nil => intro f m ft h; exact absurd h (List.not_mem_nil ft)
  | cons ft1 rest ih =>
      intro f m ft h
      by_cases hr : ft ∈ rest
      · rw [mergeLoop, ih _ _ _ hr]
        by_cases hempty : mergedItems cs ft = []
        · simp only [hempty, if_pos rfl, ite_true]
          by_cases hcond : 0 < (mergeFacetLoop ft1 cs [] m).1.length
          · simp only [hcond, if_pos rfl, ite_true]
            by_cases hfteq : ft = ft1
            · subst hfteq
              rw [mergeFacetLoop_fst ft cs [] m] at hcond
              simp only [List.nil_append] at hcond
              exact absurd (List.length_eq_zero.mpr hempty) (by omega)
            · simp [hfteq]
          · simp [hcond]
        · simp [hempty]
      · have hfteq : ft = ft1 := by
          rcases List.mem_cons.mp h with h1 | h2
          · exact h1
          · exact absurd h2 hr
        subst hfteq
        rw [mergeLoop, mergeLoop_fst_not_mem cs rest _ _ _ hr]
        rw [mergeFacetLoop_fst ft cs [] m]
        simp only [List.nil_append]
        by_cases hempty : mergedItems cs ft = []
        · simp [hempty]
        · have : 0 < (mergedItems cs ft).length := List.length_pos.mpr hempty
          simp [hempty, this]

lemma mergeCatalysts_facets (cs : List Catalyst) (ft : FacetType) :
    (mergeCatalysts cs).facets ft =
      if mergedItems cs ft = [] then none else some (mergedItems cs ft) := by
  have h := mergeLoop_fst_mem cs FACET_TYPES (fun _ => none) [] ft (mem_FACET_TYPES ft)
  simpa [mergeCatalysts] using h

lemma mergeCatalysts_facets_getD (cs : List Catalyst) (ft : FacetType) :
    ((mergeCatalysts cs).facets ft).getD [] = mergedItems cs ft := by
  rw [mergeCatalysts_facets]
  by_cases h : mergedItems cs ft = []
  · simp [h]
  · simp [h]

lemma mergeLoop_snd_nilCats :
    ∀ (fts : List FacetType) (f : FacetType → Option (List AttributedContent)) (m : ContribMap),
      (mergeLoop [] fts f m).2 = m := by
  intro fts
  induction fts with
  | nil => intro f m; simp [mergeLoop]
  | cons ft1 rest ih => intro f m; rw [mergeLoop]; simp [mergeFacetLoop, ih]

lemma mapGet_mapSet_self : ∀ (m : ContribMap) (k : String) (v : Contribution),
    mapGet (mapSet m k v) k = some v := by
  intro m
  induction m with
  | nil => intro k v; simp [mapGet, mapSet]
  | cons p rest ih =>
      intro k v
      by_cases h : p.1 = k
      · simp [mapSet, h, mapGet]
      · simp [mapSet, h, mapGet, ih]

lemma mapGet_mapSet_ne : ∀ (m : ContribMap) (k k' : String) (v : Contribution),
    k ≠ k' → mapGet (mapSet m k v) k' = mapGet m k' := by
  intro m
  induction m with
  | nil => intro k k' v h; simp [mapGet, mapSet, h]
  | cons p rest ih =>
      intro k k' v h
      obtain ⟨p1, p2⟩ := p
      by_cases hp : p1 = k
      · subst hp
        simp [mapSet, mapGet, h, Ne.symm h]
      · by_cases hp' : p1 = k'
        · subst hp'
          simp [mapSet, mapGet, hp]
        · simp [mapSet, mapGet, hp, hp', ih _ _ _ h]

lemma updateContrib_cons_ne {p : String × Contribution} {m : ContribMap} {k : String}
    {ft : FacetType} {n : Nat} (h : p.1 ≠ k) :
    updateContrib (p :: m) k ft n = p :: updateContrib m k ft n := by
  obtain ⟨k', v'⟩ := p
  simp only at h
  simp [updateContrib, mapGet, mapSet, h]

lemma contribSum_cons (p : String × Contribution) (m : ContribMap) :
    contribSum (p :: m) = p.2.contentCount + contribSum m := by
  simp [contribSum]

lemma contribSum_updateContrib : ∀ (m : ContribMap) (k : String) (ft : FacetType) (n : Nat),
    contribSum (updateContrib m k ft n) = contribSum m + n := by
  intro m
  induction m with
  | nil => intro k ft n; simp [updateContrib, mapGet, mapSet, contribSum]
  | cons p rest ih =>
      intro k ft n
      obtain ⟨k', v'⟩ := p
      by_cases h : k' = k
      · subst h
        simp [updateContrib, mapGet, mapSet, contribSum]
        omega
      · rw [updateContrib_cons_ne h, contribSum_cons, contribSum_cons, ih]
        omega

lemma mergeFacetLoop_snd_sum (ft : FacetType) : ∀ (cs : List Catalyst)
    (acc : List AttributedContent) (m : ContribMap),
    contribSum (mergeFacetLoop ft cs acc m).2 = contribSum m + (mergedItems cs ft).length := by
  intro cs
  induction cs with
  | nil => intro acc m; simp [mergeFacetLoop, mergedItems_nil]
  | cons c rest ih =>
      intro acc m
      rw [mergedItems_cons]
      cases hc : c.facets ft with
      | none =>
          simp [mergeFacetLoop, hc, ih, attributedItems_of_none hc]
      | some fc =>
          by_cases hl : 0 < fc.length
          · simp only [mergeFacetLoop, hc, hl, if_pos rfl, ite_true]
            rw [ih, contribSum_updateContrib]
            rw [attributedItems_of_some hc]
            simp
            omega
          · have hfc : fc = [] := List.length_eq_zero.mp (Nat.eq_zero_of_not_pos hl)
            subst hfc
            simp [mergeFacetLoop, hc, ih, attributedItems_of_some hc]

lemma mergeLoop_snd_sum (cs : List Catalyst) : ∀ (fts : List FacetType)
    (f : FacetType → Option (List AttributedContent)) (m : ContribMap),
    contribSum (mergeLoop cs fts f m).2 =
      contribSum m + ((fts.map (fun ft => (mergedItems cs ft).length)).sum) := by
  intro fts
  induction fts with
  | nil => intro f m; simp [mergeLoop]
  | cons ft1 rest ih =>
      intro f m
      rw [mergeLoop, ih, mergeFacetLoop_snd_sum]
      simp
      omega

lemma ftsAt_updateContrib (m : ContribMap) (k k' : String) (ft : FacetType) (n : Nat) :
    ftsAt (updateContrib m k ft n) k' =
      if k = k' then (if ft ∈ ftsAt m k then ftsAt m k else ftsAt m k ++ [ft])
      else ftsAt m k' := by
  by_cases h : k = k'
  · subst h
    simp only [if_pos rfl]
    unfold ftsAt updateContrib
    rw [mapGet_mapSet_self]
    by_cases hmem : ft ∈ ((mapGet m k).getD { facetTypes := [], contentCount := 0 }).facetTypes
    · simp [hmem]
    · simp [hmem]
  · simp only [h, ite_false]
    unfold ftsAt updateContrib
    rw [mapGet_mapSet_ne _ _ _ _ h]

lemma mem_ftsAt_mergeFacetLoop (ft : FacetType) : ∀ (cs : List Catalyst)
    (acc : List AttributedContent) (m : ContribMap) (k : String) (ft' : FacetType),
    (ft' ∈ ftsAt (mergeFacetLoop ft cs acc m).2 k ↔
      ft' ∈ ftsAt m k ∨ (ft' = ft ∧ ∃ c ∈ cs, c.manifest.id = k ∧ hasContent c ft = true)) := by
  intro cs
  induction cs with
  | nil => intro acc m k ft'; simp [mergeFacetLoop]
  | cons c rest ih =>
      intro acc m k ft'
      cases hc : c.facets ft with
      | none =>
          have hnc : hasContent c ft = false := by simp [hasContent, hc]
          simp only [mergeFacetLoop, hc]
          rw [ih]
          simp [hnc]
      | some fc =>
          by_cases hl : 0 < fc.length
          · have hyc : hasContent c ft = true := by simp [hasContent, hc, hl]
            simp only [mergeFacetLoop, hc, hl, if_pos rfl, ite_true]
            rw [ih]
            rw [ftsAt_updateContrib]
            by_cases hk : c.manifest.id = k
            · simp only [hk, if_pos rfl, ite_true]
              constructor
              · rintro (hmem | ⟨heq, hrest⟩)
                · by_cases hftmem : ft ∈ ftsAt m k
                  · rw [if_pos hftmem] at hmem
                    exact Or.inl hmem
                  · rw [if_neg hftmem] at hmem
                    rcases List.mem_append.mp hmem with h1 | h2
                    · exact Or.inl h1
                    · right
                      exact ⟨List.mem_singleton.mp h2, c, List.mem_cons_self c rest, hk, hyc⟩
                · exact Or.inr ⟨heq, c, List.mem_cons_self c rest, hk, hyc⟩
              · rintro (hmem | ⟨heq, _⟩)
                · by_cases hftmem : ft ∈ ftsAt m k
                  · rw [if_pos hftmem]; exact Or.inl hmem
                  · rw [if_neg hftmem]
                    exact Or.inl (List.mem_append.mpr (Or.inl hmem))
                · rw [heq]
                  by_cases hftmem : ft ∈ ftsAt m k
                  · rw [if_pos hftmem]; exact Or.inl hftmem
                  · rw [if_neg hftmem]
                    exact Or.inl (List.mem_append.mpr (Or.inr (List.mem_singleton.mpr rfl)))
            · simp only [hk, ite_false]
              constructor
              · rintro (hmem | ⟨rfl, c', hc', hid, hcont⟩)
                · exact Or.inl hmem
                · exact Or.inr ⟨rfl, c', List.mem_cons_of_mem c hc', hid, hcont⟩
              · rintro (hmem | ⟨rfl, c', hc', hid, hcont⟩)
                · exact Or.inl hmem
                · rcases List.mem_cons.mp hc' with rfl | hmem'
                  · exact absurd hid hk
                  · exact Or.inr ⟨rfl, c', hmem', hid, hcont⟩
          · have hnc : hasContent c ft = false := by
              simp only [hasContent, hc]
              simpa using hl
            simp only [mergeFacetLoop, hc, hl, ite_false]
            rw [ih]
            simp [hnc]

lemma mem_ftsAt_mergeLoop (cs : List Catalyst) : ∀ (fts : List FacetType)
    (f : FacetType → Option (List AttributedContent)) (m : ContribMap)
    (k : String) (ft' : FacetType),
    (ft' ∈ ftsAt (mergeLoop cs fts f m).2 k ↔
      ft' ∈ ftsAt m k ∨
        (ft' ∈ fts ∧ ∃ c ∈ cs, c.manifest.id = k ∧ hasContent c ft' = true)) := by
  intro fts
  induction fts with
  | nil => intro f m k ft'; simp [mergeLoop]
  | cons ft1 rest ih =>
      intro f m k ft'
      rw [mergeLoop, ih, mem_ftsAt_mergeFacetLoop]
      constructor
      · rintro ((hmem | ⟨heq, c, hcmem, hid, hcont⟩) | ⟨hmem1, c, hcmem, hid, hcont⟩)
        · exact Or.inl hmem
        · refine Or.inr ⟨List.mem_cons.mpr (Or.inl heq), c, hcmem, hid, ?_⟩
          rw [heq]
          exact hcont
        · exact Or.inr ⟨List.mem_cons.mpr (Or.inr hmem1), c, hcmem, hid, hcont⟩
      · rintro (hmem | ⟨hmem1, c, hcmem, hid, hcont⟩)
        · exact Or.inl (Or.inl hmem)
        · rcases List.mem_cons.mp hmem1 with heq | hrest
          · refine Or.inl (Or.inr ⟨heq, c, hcmem, hid, ?_⟩)
            rw [← heq]
            exact hcont
          · exact Or.inr ⟨hrest, c, hcmem, hid, hcont⟩

lemma nodup_append_single {α : Type} (l : List α) (a : α) (ha : a ∉ l) (hl : l.Nodup) :
    (l ++ [a]).Nodup := by
  rw [List.nodup_append]
  refine ⟨hl, List.nodup_singleton a, ?_⟩
  intro x hx hxa
  rw [List.mem_singleton.mp hxa] at hx
  exact ha hx

lemma ftsAt_nodup_updateContrib {m : ContribMap} (hm : ∀ k, (ftsAt m k).Nodup)
    (k0 : String) (ft : FacetType) (n : Nat) :
    ∀ k, (ftsAt (updateContrib m k0 ft n) k).Nodup := by
  intro k
  rw [ftsAt_updateContrib]
  by_cases hk : k0 = k
  · rw [if_pos hk]
    by_cases hmem : ft ∈ ftsAt m k0
    · rw [if_pos hmem]; exact hm k0
    · rw [if_neg hmem]; exact nodup_append_single _ _ hmem (hm k0)
  · rw [if_neg hk]; exact hm k

lemma ftsAt_nodup_mergeFacetLoop (ft : FacetType) : ∀ (cs : List Catalyst)
    (acc : List AttributedContent) (m : ContribMap),
    (∀ k, (ftsAt m k).Nodup) → ∀ k, (ftsAt (mergeFacetLoop ft cs acc m).2 k).Nodup := by
  intro cs
  induction cs with
  | nil => intro acc m hm k; simpa [mergeFacetLoop] using hm k
  | cons c rest ih =>
      intro acc m hm k
      cases hc : c.facets ft with
      | none => simp only [mergeFacetLoop, hc]; exact ih _ _ hm k
      | some fc =>
          by_cases hl : 0 < fc.length
          · simp only [mergeFacetLoop, hc, hl, if_pos rfl, ite_true]
            exact ih _ _ (ftsAt_nodup_updateContrib hm _ _ _) k
          · simp only [mergeFacetLoop, hc, hl, ite_false]
            exact ih _ _ hm k

lemma ftsAt_nodup_mergeLoop (cs : List Catalyst) : ∀ (fts : List FacetType)
    (f : FacetType → Option (List AttributedContent)) (m : ContribMap),
    (∀ k, (ftsAt m k).Nodup) → ∀ k, (ftsAt (mergeLoop cs fts f m).2 k).Nodup := by
  intro fts
  induction fts with
  | nil => intro f m hm k; simpa [mergeLoop] using hm k
  | cons ft1 rest ih =>
      intro f m hm k
      rw [mergeLoop]
      exact ih _ _ (ftsAt_nodup_mergeFacetLoop ft1 cs [] m hm) k

lemma ftsAt_nil (k : String) : ftsAt [] k = [] := by
  simp [ftsAt, mapGet]

lemma mergeCatalysts_contributions_sum (cs : List Catalyst) :
    totalMergedItems (mergeCatalysts cs) = contribSum (mergeCatalysts cs).contributions := by
  have hsum := mergeLoop_snd_sum cs FACET_TYPES (fun _ => none) []
  have hcs : contribSum ([] : ContribMap) = 0 := by simp [contribSum]
  rw [hcs, Nat.zero_add] at hsum
  rw [totalMergedItems]
  have heq : (FACET_TYPES.map (fun ft => (((mergeCatalysts cs).facets ft).getD []).length)) =
      (FACET_TYPES.map (fun ft => (mergedItems cs ft).length)) := by
    apply List.map_congr_left
    intro ft _
    rw [mergeCatalysts_facets_getD]
  rw [heq, ← hsum]
  rfl

lemma mergeCatalysts_ftsAt_nodup (cs : List Catalyst) (k : String) :
    (ftsAt (mergeCatalysts cs).contributions k).Nodup := by
  have h := ftsAt_nodup_mergeLoop cs FACET_TYPES (fun _ => none) []
    (fun k' => by rw [ftsAt_nil]; exact List.nodup_nil) k
  simpa [mergeCatalysts] using h

lemma mergeCatalysts_ftsAt_mem (cs : List Catalyst) (k : String) (ft : FacetType) :
    ft ∈ ftsAt (mergeCatalysts cs).contributions k ↔
      ∃ c ∈ cs, c.manifest.id = k ∧ hasContent c ft = true := by
  have h := mem_ftsAt_mergeLoop cs FACET_TYPES (fun _ => none) [] k ft
  rw [ftsAt_nil] at h
  simpa [mergeCatalysts, mem_FACET_TYPES] using h

lemma sepBlocks_cons (r : String × List String) (runs : List (String × List String)) :
    sepBlocks (r :: runs) = "" :: (runBlock r ++ sepBlocks runs) := by
  simp [sepBlocks]

lemma renderLoop_append (cs : List AttributedContent) :
    ∀ (lines : List String) (cur : String), lines ≠ [] →
      renderLoop cs lines cur = lines ++ renderTail cs cur := by
  induction cs with
  | nil => intro lines cur _; simp [renderLoop, renderTail]
  | cons item rest ih =>
      intro lines cur hne
      by_cases hsrc : item.sourceId = cur
      · rw [renderLoop, if_pos hsrc, ih _ _ (by simp), renderTail, if_pos hsrc]
        simp
      · have hlen : 0 < lines.length := List.length_pos.mpr hne
        rw [renderLoop, if_neg hsrc, if_pos hlen, ih _ _ (by simp), renderTail, if_neg hsrc]
        simp

lemma contentRuns_cons_nil {item : AttributedContent} {rest : List AttributedContent}
    (hr : contentRuns rest = []) :
    contentRuns (item :: rest) = [(item.sourceId, [item.content])] := by
  rw [contentRuns, hr]

lemma contentRuns_cons_same {item : AttributedContent} {rest : List AttributedContent}
    {s : String} {c : List String} {more : List (String × List String)}
    (hr : contentRuns rest = (s, c) :: more) (hss : item.sourceId = s) :
    contentRuns (item :: rest) = (s, item.content :: c) :: more := by
  rw [contentRuns, hr]
  simp [hss]

lemma contentRuns_cons_new {item : AttributedContent} {rest : List AttributedContent}
    {s : String} {c : List String} {more : List (String × List String)}
    (hr : contentRuns rest = (s, c) :: more) (hss : ¬ item.sourceId = s) :
    contentRuns (item :: rest) = (item.sourceId, [item.content]) :: (s, c) :: more := by
  rw [contentRuns, hr]
  simp [hss]

lemma runsTail_cons (s : String) (c : List String) (more : List (String × List String))
    (cur : String) :
    runsTail ((s, c) :: more) cur =
      if s = cur then c ++ sepBlocks more else sepBlocks ((s, c) :: more) := by
  rfl

lemma renderTail_eq (cs : List AttributedContent) :
    ∀ cur, renderTail cs cur = runsTail (contentRuns cs) cur := by
  induction cs with
  | nil => intro cur; simp [renderTail, contentRuns, runsTail]
  | cons item rest ih =>
      intro cur
      rw [renderTail]
      cases hr : contentRuns rest with
      | nil =>
          have htail : ∀ cur', renderTail rest cur' = [] := by
            intro cur'; rw [ih, hr]; rfl
          rw [contentRuns_cons_nil hr, runsTail_cons]
          by_cases hsrc : item.sourceId = cur
          · rw [if_pos hsrc, if_pos hsrc, htail]
            simp [sepBlocks]
          · rw [if_neg hsrc, if_neg hsrc, htail, sepBlocks_cons]
            simp [sepBlocks, runBlock]
      | cons r more =>
          obtain ⟨s, c⟩ := r
          by_cases hss : item.sourceId = s
          · rw [contentRuns_cons_same hr hss, runsTail_cons]
            by_cases hsrc : item.sourceId = cur
            · have hscur : s = cur := hss ▸ hsrc
              rw [if_pos hsrc, if_pos hscur, ih, hr, runsTail_cons,
                if_pos (hss.symm.trans hsrc)]
              simp
            · have hscur : ¬ s = cur := fun h => hsrc (hss.symm ▸ h)
              rw [if_neg hsrc, if_neg hscur, ih, hr, runsTail_cons, if_pos hss.symm,
                sepBlocks_cons]
              simp [runBlock, hss]
          · rw [contentRuns_cons_new hr hss, runsTail_cons]
            have hssymm : ¬ s = item.sourceId := fun h => hss h.symm
            by_cases hsrc : item.sourceId = cur
            · rw [if_pos hsrc, if_pos hsrc, ih, hr, runsTail_cons,
                if_neg (fun h => hssymm (h.trans hsrc.symm))]
              simp
            · rw [if_neg hsrc, if_neg hsrc, ih, hr, runsTail_cons, if_neg hssymm]
              simp [sepBlocks_cons, runBlock]

lemma intercalate_blank_cons (bs : List (List String)) : ∀ (b : List String),
    List.intercalate [""] (b :: bs) = b ++ (bs.map (fun x => "" :: x)).flatten := by
  induction bs with
  | nil => intro b; simp [List.intercalate]
  | cons b2 rest ih =>
      intro b
      rw [List.intercalate, List.intersperse_cons_cons, List.flatten_cons, List.flatten_cons]
      have h2 := ih b2
      rw [List.intercalate] at h2
      rw [h2]
      simp

lemma specFacetLines_nil (content : List AttributedContent) (hr : contentRuns content = []) :
    specFacetLines content = [] := by
  simp [specFacetLines, hr, List.intercalate]

lemma specFacetLines_cons (content : List AttributedContent) (r : String × List String)
    (more : List (String × List String)) (hr : contentRuns content = r :: more) :
    specFacetLines content = runBlock r ++ sepBlocks more := by
  simp only [specFacetLines, hr, List.map_cons]
  rw [intercalate_blank_cons, sepBlocks, List.map_map]
  rfl

lemma renderFacet_eq_spec (merged : MergedCatalyst) (ft : FacetType)
    (item : AttributedContent) (rest : List AttributedContent)
    (hf : merged.facets ft = some (item :: rest)) (hs : item.sourceId ≠ "") :
    renderFacet merged ft = specRenderFacet (item :: rest) := by
  rw [renderFacet, hf]
  simp only [List.length_cons]
  rw [if_neg (by omega)]
  rw [specRenderFacet]
  congr 1
  rw [renderLoop, if_neg hs]
  simp only [List.length_nil, Nat.lt_irrefl, ite_false, List.nil_append]
  rw [renderLoop_append rest _ _ (by simp), renderTail_eq]
  cases hr : contentRuns rest with
  | nil =>
      have htail : runsTail ([] : List (String × List String)) item.sourceId = [] := rfl
      rw [htail, specFacetLines_cons _ _ _ (contentRuns_cons_nil hr)]
      simp [runBlock, sepBlocks]
  | cons r more =>
      obtain ⟨s, c⟩ := r
      by_cases hss : item.sourceId = s
      · rw [specFacetLines_cons _ _ _ (contentRuns_cons_same hr hss), runsTail_cons,
          if_pos hss.symm]
        simp [runBlock, hss]
      · have hssymm : ¬ s = item.sourceId := fun h => hss h.symm
        rw [specFacetLines_cons _ _ _ (contentRuns_cons_new hr hss), runsTail_cons,
          if_neg hssymm, sepBlocks_cons]
        simp [runBlock]

lemma loadFacetsLoop_snd (d : FacetType → FacetDirState) (manifest : CatalystManifest)
    (o : CatalystLoadOptions) : ∀ (fts : List FacetType)
    (facets : FacetType → Option (List FacetContent)) (warnings : List String),
    (loadFacetsLoop d manifest o fts facets warnings).2 =
      warnings ++ (fts.map (facetWarning d manifest o)).flatten := by
  intro fts
  induction fts with
  | nil => intro facets warnings; simp [loadFacetsLoop]
  | cons ft rest ih =>
      intro facets warnings
      by_cases hex : (d ft).dirExists
      · by_cases hw : (declaredFacet manifest ft == some false && o.warnOnUndeclaredFacets) = true
        · simp [loadFacetsLoop, hex, hw, ih, facetWarning]
        · simp [loadFacetsLoop, hex, hw, ih, facetWarning]
      · by_cases hw : (declaredFacet manifest ft == some true && o.warnOnMissingFacets) = true
        · simp [loadFacetsLoop, hex, hw, ih, facetWarning]
        · simp [loadFacetsLoop, hex, hw, ih, facetWarning]

lemma loadFacets_warnings (d : FacetType → FacetDirState) (manifest : CatalystManifest)
    (o : CatalystLoadOptions) :
    (loadFacets d manifest o).2 = (FACET_TYPES.map (facetWarning d manifest o)).flatten := by
  rw [loadFacets, loadFacetsLoop_snd]
  simp

lemma facetWarning_mem (d : FacetType → FacetDirState) (manifest : CatalystManifest)
    (o : CatalystLoadOptions) (ft : FacetType) (w : String)
    (hw : w ∈ facetWarning d manifest o ft) : w ∈ (loadFacets d manifest o).2 := by
  rw [loadFacets_warnings]
  exact List.mem_flatten.mpr ⟨facetWarning d manifest o ft,
    List.mem_map.mpr ⟨ft, mem_FACET_TYPES ft, rfl⟩, hw⟩

lemma resolveCatalystsLoop_ok_iff (fs : FileSystem) (cwd basePath : String)
    (o : CatalystLoadOptions) : ∀ (ids : List String) (cs : List Catalyst),
    (resolveCatalystsLoop fs cwd basePath o ids = .ok cs ↔
      List.Forall₂ (fun idf c => loadCatalyst fs cwd (resolvePath basePath idf) o = .ok c)
        ids cs) := by
  intro ids
  induction ids with
  | nil =>
      intro cs
      simp only [resolveCatalystsLoop, List.forall₂_nil_left_iff]
      constructor
      · intro h; cases h; rfl
      · intro h; rw [h]
  | cons idf rest ih =>
      intro cs
      cases hload : loadCatalyst fs cwd (resolvePath basePath idf) o with
      | error e =>
          simp only [resolveCatalystsLoop, hload]
          constructor
          · intro h; cases h
          · intro h
            rcases List.forall₂_cons_left_iff.mp h with ⟨b, u, hR, _, rfl⟩
            rw [hload] at hR
            cases hR
      | ok c =>
          cases hrest : resolveCatalystsLoop fs cwd basePath o rest with
          | ok cs' =>
              simp only [resolveCatalystsLoop, hload, hrest]
              constructor
              · intro h
                cases h
                exact List.forall₂_cons.mpr ⟨hload, (ih cs').mp hrest⟩
              · intro h
                rcases List.forall₂_cons_left_iff.mp h with ⟨b, u, hR, hF, rfl⟩
                rw [hload] at hR
                cases hR
                have := (ih u).mpr hF
                rw [hrest] at this
                cases this
                rfl
          | error e =>
              simp only [resolveCatalystsLoop, hload, hrest]
              constructor
              · intro h; cases h
              · intro h
                rcases List.forall₂_cons_left_iff.mp h with ⟨b, u, hR, hF, rfl⟩
                have := (ih u).mpr hF
                rw [hrest] at this
                cases this

lemma exceptIsOk_iff {ε α : Type} (x : Except ε α) : x.isOk = true ↔ ∃ c, x = .ok c := by
  cases x with
  | ok c => simp [Except.isOk, Except.toBool]
  | error e => simp [Except.isOk, Except.toBool]

lemma resolveCatalystsLoop_err (fs : FileSystem) (cwd basePath : String)
    (o : CatalystLoadOptions) : ∀ (pre : List String) (bad : String) (post : List String)
    (e : String),
    (∀ p ∈ pre, (loadCatalyst fs cwd (resolvePath basePath p) o).isOk = true) →
    loadCatalyst fs cwd (resolvePath basePath bad) o = .error e →
    resolveCatalystsLoop fs cwd basePath o (pre ++ bad :: post) =
      .error ("Failed to load catalyst '" ++ bad ++ "': " ++ e) := by
  intro pre
  induction pre with
  | nil =>
      intro bad post e _ hbad
      simp [resolveCatalystsLoop, hbad]
  | cons p rest ih =>
      intro bad post e hpre hbad
      obtain ⟨c, hc⟩ := (exceptIsOk_iff _).mp (hpre p (List.mem_cons_self p rest))
      have hrest := ih bad post e (fun q hq => hpre q (List.mem_cons_of_mem p hq)) hbad
      simp only [List.cons_append, resolveCatalystsLoop, hc, List.append_eq, hrest]

lemma string_length_lt_one_iff (s : String) : s.length < 1 ↔ s = "" := by
  rw [Nat.lt_one_iff]
  constructor
  · intro h; exact String.ext (List.length_eq_zero.mp h)
  · intro h; subst h; rfl

lemma manifestIssues_eq_nil_iff (m : CatalystManifest) :
    manifestIssues m = [] ↔
      (npmPackageMatch m.id = true ∧ m.name ≠ "" ∧ m.description ≠ "" ∧
        semverMatch m.version = true) := by
  unfold manifestIssues
  simp only [string_length_lt_one_iff]
  by_cases h1 : npmPackageMatch m.id <;>
    by_cases h2 : m.name = "" <;>
      by_cases h3 : m.description = "" <;>
        by_cases h4 : semverMatch m.version <;>
          simp [h1, h2, h3, h4]

lemma parseCatalystManifest_isOk_iff (m : CatalystManifest) :
    (parseCatalystManifest m).isOk = true ↔
      (npmPackageMatch m.id = true ∧ m.name ≠ "" ∧ m.description ≠ "" ∧
        semverMatch m.version = true) := by
  rw [← manifestIssues_eq_nil_iff]
  unfold parseCatalystManifest
  cases him : manifestIssues m with
  | nil => simp [Except.isOk, Except.toBool]
  | cons i is => simp [Except.isOk, Except.toBool]

lemma loadCatalyst_dir_missing (fs : FileSystem) (cwd p : String) (o : CatalystLoadOptions)
    (h : (fs (resolvePath cwd p)).dirExists = false) :
    loadCatalyst fs cwd p o = .error ("Catalyst directory not found: " ++ resolvePath cwd p) := by
  simp [loadCatalyst, h]

lemma loadCatalyst_manifest_missing (fs : FileSystem) (cwd p : String)
    (o : CatalystLoadOptions) (h1 : (fs (resolvePath cwd p)).dirExists = true)
    (h2 : (fs (resolvePath cwd p)).manifestFile = none) :
    loadCatalyst fs cwd p o =
      .error ("Catalyst manifest not found at " ++ resolvePath cwd p ++ "/catalyst.yml") := by
  simp [loadCatalyst, h1, loadManifest, h2]

lemma loadCatalyst_manifest_invalid (fs : FileSystem) (cwd p : String)
    (o : CatalystLoadOptions) (raw : CatalystManifest)
    (h1 : (fs (resolvePath cwd p)).dirExists = true)
    (h2 : (fs (resolvePath cwd p)).manifestFile = some raw)
    (h3 : manifestIssues raw ≠ []) :
    loadCatalyst fs cwd p o =
      .error ("Invalid catalyst manifest: " ++ issuesMessage (manifestIssues raw)) := by
  cases him : manifestIssues raw with
  | nil => exact absurd him h3
  | cons i is => simp [loadCatalyst, h1, loadManifest, h2, him]

lemma loadCatalyst_ok_isOk (fs : FileSystem) (cwd p : String) (o : CatalystLoadOptions)
    (raw : CatalystManifest) (h1 : (fs (resolvePath cwd p)).dirExists = true)
    (h2 : (fs (resolvePath cwd p)).manifestFile = some raw)
    (h3 : manifestIssues raw = []) :
    (loadCatalyst fs cwd p o).isOk = true := by
  simp [loadCatalyst, h1, loadManifest, h2, h3, Except.isOk, Except.toBool]

/-- C1: For every ordered list of catalysts and every facet category, the
merged facets mapping holds under the category exactly the concatenation,
in input position order, of each catalyst's attributed items — one item
per source file in that catalyst's internal file order, tagged with the
contributing manifest id and original filename, content unmodified — the
key being present exactly when that concatenation is non-empty. -/
theorem C1_mergeCatalysts_ordered_attribution (cs : List Catalyst) (ft : FacetType) :
    (mergeCatalysts cs).facets ft =
      if (cs.map (attributedItems ft)).flatten = []
      then none else some ((cs.map (attributedItems ft)).flatten) := by
  have h := mergeCatalysts_facets cs ft
  simpa [mergedItems] using h

/-- C2 counterexample: the questions directory exists but holds no matching
file while the manifest declares questions true and the caller opted in to
warnOnMissingFacets, yet loadFacets emits no warning at all — the code only
warns when the directory is absent, not when it is present but empty. -/
theorem C2_counterexample_empty_declared_dir :
    (c2EmptyDirs FacetType.questions).dirExists = true
    ∧ loadFacetFiles (c2EmptyDirs FacetType.questions).entries = []
    ∧ declaredFacet c2Manifest FacetType.questions = some true
    ∧ c2Options.warnOnMissingFacets = true
    ∧ (loadFacets c2EmptyDirs c2Manifest c2Options).2 = [] :=
  ⟨rfl, rfl, rfl, rfl, rfl⟩

/-- C2 amended: a facet declared true whose directory is absent yields a
missing-facet warning when warnOnMissingFacets is set; a facet declared
false whose directory exists (in particular whenever content was found)
yields an undeclared-facet warning when warnOnUndeclaredFacets is set; and
warnings never block loading — a directory with a present valid manifest
loads successfully whatever the warnings. -/
theorem C2_amended_facet_warnings :
    (∀ (d : FacetType → FacetDirState) (manifest : CatalystManifest)
       (o : CatalystLoadOptions) (ft : FacetType),
       (d ft).dirExists = false → declaredFacet manifest ft = some true →
       o.warnOnMissingFacets = true → missingWarning ft ∈ (loadFacets d manifest o).2)
    ∧ (∀ (d : FacetType → FacetDirState) (manifest : CatalystManifest)
       (o : CatalystLoadOptions) (ft : FacetType),
       (d ft).dirExists = true → declaredFacet manifest ft = some false →
       o.warnOnUndeclaredFacets = true → undeclaredWarning ft ∈ (loadFacets d manifest o).2)
    ∧ (∀ (fs : FileSystem) (cwd p : String) (o : CatalystLoadOptions)
       (raw : CatalystManifest),
       (fs (resolvePath cwd p)).dirExists = true →
       (fs (resolvePath cwd p)).manifestFile = some raw →
       manifestIssues raw = [] →
       (loadCatalyst fs cwd p o).isOk = true) := by
  refine ⟨?_, ?_, ?_⟩
  · intro d manifest o ft h1 h2 h3
    exact facetWarning_mem d manifest o ft (missingWarning ft)
      (by simp [facetWarning, h1, h2, h3])
  · intro d manifest o ft h1 h2 h3
    exact facetWarning_mem d manifest o ft (undeclaredWarning ft)
      (by simp [facetWarning, h1, h2, h3])
  · intro fs cwd p o raw h1 h2 h3
    exact loadCatalyst_ok_isOk fs cwd p o raw h1 h2 h3

/-- C2 amended witness: on the fixture, the absent declared-true questions
facet and the present declared-false constraints facet each put their
warning in the loadFacets warning list. -/
theorem C2_amended_facet_warnings_witness :
    (c2WitnessDirs FacetType.questions).dirExists = false
    ∧ declaredFacet c2Manifest FacetType.questions = some true
    ∧ c2Options.warnOnMissingFacets = true
    ∧ missingWarning FacetType.questions ∈ (loadFacets c2WitnessDirs c2Manifest c2Options).2
    ∧ (c2WitnessDirs FacetType.constraints).dirExists = true
    ∧ declaredFacet c2Manifest FacetType.constraints = some false
    ∧ c2Options.warnOnUndeclaredFacets = true
    ∧ undeclaredWarning FacetType.constraints ∈
        (loadFacets c2WitnessDirs c2Manifest c2Options).2 :=
  ⟨rfl, rfl, rfl,
    C2_amended_facet_warnings.1 c2WitnessDirs c2Manifest c2Options FacetType.questions
      rfl rfl rfl,
    rfl, rfl, rfl,
    C2_amended_facet_warnings.2.1 c2WitnessDirs c2Manifest c2Options FacetType.constraints
      rfl rfl rfl⟩

/-- C3 counterexample: a merged category whose first item carries the empty
string as sourceId renders with no header line at all — the loop's
empty-string sentinel swallows the header of that leading run, against the
claimed one-header-per-run shape. -/
theorem C3_counterexample_empty_sourceId :
    renderFacet c3EmptySourceMerged FacetType.questions = "hello"
    ∧ specRenderFacet [{ content := "hello", sourceId := "", filename := none }] =
        "From :" ++ "\n" ++ "hello"
    ∧ renderFacet c3EmptySourceMerged FacetType.questions ≠
        specRenderFacet [{ content := "hello", sourceId := "", filename := none }] := by
  refine ⟨by decide, by decide, by decide⟩

/-- C3 amended: renderFacet returns the empty string when the category is
absent or empty, and otherwise — provided the first item's sourceId is not
the empty string, the loop's change-detection sentinel — it equals the spec
rendering: one header per maximal contiguous same-source run, each run's
raw contents under its header, runs separated by exactly one blank line,
with no blank line before the first header. -/
theorem C3_amended_renderFacet_runs (merged : MergedCatalyst) (ft : FacetType) :
    (merged.facets ft = none → renderFacet merged ft = "")
    ∧ (merged.facets ft = some [] → renderFacet merged ft = "")
    ∧ (∀ (item : AttributedContent) (rest : List AttributedContent),
        merged.facets ft = some (item :: rest) → item.sourceId ≠ "" →
        renderFacet merged ft = specRenderFacet (item :: rest)) := by
  refine ⟨?_, ?_, ?_⟩
  · intro h; simp [renderFacet, h]
  · intro h; simp [renderFacet, h]
  · intro item rest hf hs
    exact renderFacet_eq_spec merged ft item rest hf hs

/-- C3 amended witness: the two-source fixture renders exactly as the spec
rendering of its runs. -/
theorem C3_amended_renderFacet_runs_witness :
    c3TwoSourceMerged.facets FacetType.questions = some c3Items
    ∧ ("@t/a" : String) ≠ ""
    ∧ renderFacet c3TwoSourceMerged FacetType.questions = specRenderFacet c3Items :=
  ⟨rfl, by decide,
    (C3_amended_renderFacet_runs c3TwoSourceMerged FacetType.questions).2.2
      { content := "A1", sourceId := "@t/a", filename := none }
      [{ content := "A2", sourceId := "@t/a", filename := none },
       { content := "B1", sourceId := "@t/b", filename := none }]
      rfl (by decide)⟩

/-- C4: resolveCatalysts resolves each identifier against the base path
(an absolute identifier passing through unchanged), succeeds exactly when
every identifier loads, returning the loaded catalysts pointwise in input
order, and on a batch whose first failure is at identifier bad it returns
only the error naming bad and wrapping the underlying cause — no partial
list exists in the error outcome. -/
theorem C4_resolveCatalysts_atomic :
    (∀ base p, isAbsolutePath p = true → resolvePath base p = p)
    ∧ (∀ (fs : FileSystem) (cwd basePath : String) (o : CatalystLoadOptions)
        (ids : List String) (cs : List Catalyst),
        (resolveCatalysts fs cwd ids basePath o = .ok cs ↔
          List.Forall₂ (fun idf c =>
            loadCatalyst fs cwd (resolvePath basePath idf) o = .ok c) ids cs))
    ∧ (∀ (fs : FileSystem) (cwd basePath : String) (o : CatalystLoadOptions)
        (pre : List String) (bad : String) (post : List String) (e : String),
        (∀ p ∈ pre, (loadCatalyst fs cwd (resolvePath basePath p) o).isOk = true) →
        loadCatalyst fs cwd (resolvePath basePath bad) o = .error e →
        resolveCatalysts fs cwd (pre ++ bad :: post) basePath o =
          .error ("Failed to load catalyst '" ++ bad ++ "': " ++ e)) := by
  refine ⟨?_, ?_, ?_⟩
  · intro base p h; simp [resolvePath, h]
  · intro fs cwd basePath o ids cs
    exact resolveCatalystsLoop_ok_iff fs cwd basePath o ids cs
  · intro fs cwd basePath o pre bad post e h1 h2
    exact resolveCatalystsLoop_err fs cwd basePath o pre bad post e h1 h2

/-- C4 witness: a batch of one loadable path followed by a nonexistent
absolute path fails, naming the nonexistent identifier and wrapping the
directory-not-found cause. -/
theorem C4_resolveCatalysts_atomic_witness :
    (loadCatalyst exampleFS "/cwd" (resolvePath "/base" "/plans/good") {}).isOk = true
    ∧ loadCatalyst exampleFS "/cwd" (resolvePath "/base" "/plans/missing") {} =
        .error ("Catalyst directory not found: " ++ "/plans/missing")
    ∧ resolveCatalysts exampleFS "/cwd" ["/plans/good", "/plans/missing"] "/base" {} =
        .error ("Failed to load catalyst '" ++ "/plans/missing" ++ "': " ++
          ("Catalyst directory not found: " ++ "/plans/missing")) := by
  refine ⟨by decide, rfl, ?_⟩
  exact C4_resolveCatalysts_atomic.2.2 exampleFS "/cwd" "/base" {}
    ["/plans/good"] "/plans/missing" [] ("Catalyst directory not found: " ++ "/plans/missing")
    (by
      intro p hp
      rw [List.mem_singleton] at hp
      subst hp
      decide)
    rfl

/-- C5: loadCatalyst fails with the directory-not-found error when the
target directory is absent, with the manifest-not-found error naming the
manifest path when the directory exists without a manifest file, and with
the invalid-manifest error aggregating every violated field path and
reason when the manifest is present but fails validation; loadCatalystSafe
never throws, converting exactly these outcomes into success and failure
results. -/
theorem C5_loadCatalyst_errors :
    (∀ (fs : FileSystem) (cwd p : String) (o : CatalystLoadOptions),
       (fs (resolvePath cwd p)).dirExists = false →
       loadCatalyst fs cwd p o =
         .error ("Catalyst directory not found: " ++ resolvePath cwd p))
    ∧ (∀ (fs : FileSystem) (cwd p : String) (o : CatalystLoadOptions),
       (fs (resolvePath cwd p)).dirExists = true →
       (fs (resolvePath cwd p)).manifestFile = none →
       loadCatalyst fs cwd p o =
         .error ("Catalyst manifest not found at " ++ resolvePath cwd p ++ "/catalyst.yml"))
    ∧ (∀ (fs : FileSystem) (cwd p : String) (o : CatalystLoadOptions)
       (raw : CatalystManifest),
       (fs (resolvePath cwd p)).dirExists = true →
       (fs (resolvePath cwd p)).manifestFile = some raw →
       manifestIssues raw ≠ [] →
       loadCatalyst fs cwd p o =
         .error ("Invalid catalyst manifest: " ++ issuesMessage (manifestIssues raw)))
    ∧ (∀ (fs : FileSystem) (cwd p : String) (o : CatalystLoadOptions) (c : Catalyst),
        loadCatalyst fs cwd p o = .ok c → loadCatalystSafe fs cwd p o = .success c)
    ∧ (∀ (fs : FileSystem) (cwd p : String) (o : CatalystLoadOptions) (e : String),
        loadCatalyst fs cwd p o = .error e → loadCatalystSafe fs cwd p o = .failure e) := by
  refine ⟨loadCatalyst_dir_missing, loadCatalyst_manifest_missing,
    loadCatalyst_manifest_invalid, ?_, ?_⟩
  · intro fs cwd p o c h; simp [loadCatalystSafe, h]
  · intro fs cwd p o e h; simp [loadCatalystSafe, h]

/-- C5 witness: the three failure classes and the safe conversion observed
on the example filesystem. -/
theorem C5_loadCatalyst_errors_witness :
    (exampleFS "/plans/missing").dirExists = false
    ∧ loadCatalyst exampleFS "/cwd" "/plans/missing" {} =
        .error ("Catalyst directory not found: " ++ "/plans/missing")
    ∧ (exampleFS "/plans/nomanifest").manifestFile = none
    ∧ loadCatalyst exampleFS "/cwd" "/plans/nomanifest" {} =
        .error ("Catalyst manifest not found at " ++ "/plans/nomanifest" ++ "/catalyst.yml")
    ∧ manifestIssues exBadManifest ≠ []
    ∧ loadCatalyst exampleFS "/cwd" "/plans/badmanifest" {} =
        .error ("Invalid catalyst manifest: " ++ issuesMessage (manifestIssues exBadManifest))
    ∧ loadCatalystSafe exampleFS "/cwd" "/plans/missing" {} =
        .failure ("Catalyst directory not found: " ++ "/plans/missing") :=
  ⟨rfl,
    C5_loadCatalyst_errors.1 exampleFS "/cwd" "/plans/missing" {} rfl,
    rfl,
    C5_loadCatalyst_errors.2.1 exampleFS "/cwd" "/plans/nomanifest" {} rfl rfl,
    by decide,
    C5_loadCatalyst_errors.2.2.1 exampleFS "/cwd" "/plans/badmanifest" {} exBadManifest
      rfl rfl (by decide),
    C5_loadCatalyst_errors.2.2.2.2 exampleFS "/cwd" "/plans/missing" {}
      ("Catalyst directory not found: " ++ "/plans/missing")
      (C5_loadCatalyst_errors.1 exampleFS "/cwd" "/plans/missing" {} rfl)⟩

/-- C6: catalyst-manifest schema validation accepts a candidate exactly
when the id matches the NPM package pattern, name and description are
non-empty, and the version matches the semver pattern; with the quoted
concrete acceptances and rejections. -/
theorem C6_manifest_schema_validation :
    (∀ m : CatalystManifest,
      ((parseCatalystManifest m).isOk = true ↔
        (npmPackageMatch m.id = true ∧ m.name ≠ "" ∧ m.description ≠ "" ∧
          semverMatch m.version = true)))
    ∧ npmPackageMatch "@scope/valid-name" = true
    ∧ npmPackageMatch "@invalid//package" = false
    ∧ semverMatch "1.0.0-dev.0" = true
    ∧ semverMatch "v1.0.0" = false
    ∧ (parseCatalystManifest
        { id := "@scope/valid-name", name := "N", description := "D",
          version := "1.0.0-dev.0", facets := none }).isOk = true
    ∧ (parseCatalystManifest
        { id := "@scope/valid-name", name := "", description := "D",
          version := "1.0.0", facets := none }).isOk = false
    ∧ (parseCatalystManifest
        { id := "@scope/valid-name", name := "N", description := "",
          version := "1.0.0", facets := none }).isOk = false :=
  ⟨parseCatalystManifest_isOk_iff, by decide, by decide, by decide, by decide,
    by decide, by decide, by decide⟩

/-- C7: mergeCatalysts is total and never fails; the empty input yields the
empty id list, the all-absent facets mapping and the empty contributions
map; catalystIds is always the input manifest ids in order, duplicates
preserved; and a category key never holds an empty list. -/
theorem C7_mergeCatalysts_never_fails :
    (mergeCatalysts []).catalystIds = []
    ∧ (∀ ft, (mergeCatalysts []).facets ft = none)
    ∧ (mergeCatalysts []).contributions = []
    ∧ (∀ cs, (mergeCatalysts cs).catalystIds = cs.map (fun c => c.manifest.id))
    ∧ (∀ cs ft, ((mergeCatalysts cs).facets ft).all (fun l => !l.isEmpty) = true) := by
  refine ⟨rfl, ?_, ?_, fun cs => rfl, ?_⟩
  · intro ft
    rw [mergeCatalysts_facets]
    simp [mergedItems_nil]
  · simpa [mergeCatalysts] using mergeLoop_snd_nilCats FACET_TYPES (fun _ => none) []
  · intro cs ft
    rw [mergeCatalysts_facets]
    by_cases h : mergedItems cs ft = []
    · simp [h, Option.all]
    · simp [h, Option.all, List.isEmpty_eq_false]

/-- C8: for any two catalysts and any category, merging in either order
produces the same multiset of attributed items for that category — the two
concatenations are permutations of one another. -/
theorem C8_merge_pair_multiset (A B : Catalyst) (ft : FacetType) :
    List.Perm (((mergeCatalysts [A, B]).facets ft).getD [])
      (((mergeCatalysts [B, A]).facets ft).getD []) := by
  rw [mergeCatalysts_facets_getD, mergeCatalysts_facets_getD]
  have h1 : mergedItems [A, B] ft = attributedItems ft A ++ attributedItems ft B := by
    simp [mergedItems]
  have h2 : mergedItems [B, A] ft = attributedItems ft B ++ attributedItems ft A := by
    simp [mergedItems]
  rw [h1, h2]
  exact List.perm_append_comm

/-- C9: readPlanManifest yields null (none) for an absent plan.yaml, and a
present candidate is either returned validated or rejected with the
aggregated error — a present-but-invalid manifest is never converted to
null. -/
theorem C9_readPlanManifest_missing_vs_invalid :
    readPlanManifest none = .ok none
    ∧ (∀ raw, planManifestIssues raw ≠ [] →
        readPlanManifest (some raw) =
          .error ("Invalid plan manifest: " ++ issuesMessage (planManifestIssues raw)))
    ∧ (∀ raw, readPlanManifest (some raw) ≠ .ok none) := by
  refine ⟨rfl, ?_, ?_⟩
  · intro raw h
    cases him : planManifestIssues raw with
    | nil => exact absurd him h
    | cons i is => simp [readPlanManifest, him]
  · intro raw
    cases him : planManifestIssues raw with
    | nil => simp [readPlanManifest, him]
    | cons i is => simp [readPlanManifest, him]

/-- C9 witness: an empty-id plan manifest is reported invalid, not
converted to null. -/
theorem C9_readPlanManifest_missing_vs_invalid_witness :
    planManifestIssues exBadPlan ≠ []
    ∧ readPlanManifest (some exBadPlan) =
        .error ("Invalid plan manifest: " ++ issuesMessage (planManifestIssues exBadPlan))
    ∧ readPlanManifest (some exBadPlan) ≠ .ok none :=
  ⟨by decide,
    C9_readPlanManifest_missing_vs_invalid.2.1 exBadPlan (by decide),
    C9_readPlanManifest_missing_vs_invalid.2.2 exBadPlan⟩

/-- C10: conservation of the merge — the total number of attributed items
over all facet categories equals the sum of contentCount over the
contribution entries, and the facetTypes recorded for any id hold no
duplicates and are exactly the categories to which some input catalyst
with that id contributed at least one file. -/
theorem C10_merge_conservation (cs : List Catalyst) :
    totalMergedItems (mergeCatalysts cs) = contribSum (mergeCatalysts cs).contributions
    ∧ (∀ k, (ftsAt (mergeCatalysts cs).contributions k).Nodup)
    ∧ (∀ k ft, ft ∈ ftsAt (mergeCatalysts cs).contributions k ↔
        ∃ c ∈ cs, c.manifest.id = k ∧ hasContent c ft = true) :=
  ⟨mergeCatalysts_contributions_sum cs, mergeCatalysts_ftsAt_nodup cs,
    mergeCatalysts_ftsAt_mem cs⟩

end RiotplanCatalyst
